import Mathlib

/-!
Verification development for the NBER working-paper scraper
(`nber_scraper/scraper.py`).

The Python source is shallowly embedded below.  Strings are handled as
`List Char`; the network and the HTML parser are external capabilities and
are modelled as oracles (`AttemptOutcome`, `Page`, `World`).  Every function
keeps the structure — and, where Lean allows, the name — of the Python
function it embeds:

  * `get_page`               — `NBERScraper.get_page` (fetch with retries)
  * `extract_paper_metadata` — `NBERScraper.extract_paper_metadata`
  * `matches_search_query`   — `NBERScraper.matches_search_query`
  * `matches_date_range`     — `NBERScraper.matches_date_range`
  * `scrape_papers`          — the scan loop of `NBERScraper.scrape_papers`

Regular-expression fragments used by the source (`\b...\b` whole-word
search, `^Abstract:?\s*` label stripping, `\s+` collapsing, and the
full-text abstract fallback pattern) are given operational models with the
backtracking order of Python's `re` engine (leftmost start, greedy `\s*`,
lazy bounded repetition, alternation in written order).
-/

namespace NberScraper

/-! ## Character and string primitives (models of Python `str` methods) -/

/-- Model of Python's whitespace class `\s` (and `str.strip`'s notion of
whitespace) restricted to ASCII: space, tab, newline, carriage return,
vertical tab, form feed. -/
def isPySpace (c : Char) : Bool :=
  c == ' ' || c == '\t' || c == '\n' || c == '\r' || c == '\x0b' || c == '\x0c'

/-- Model of the regex word class `\w` restricted to ASCII:
letters, digits and underscore. -/
def isWordChar (c : Char) : Bool :=
  c.isAlphanum || c == '_'

/-- Python `str.lower` (ASCII case folding). -/
def toLowerL (l : List Char) : List Char := l.map Char.toLower

/-- Python `str.strip()`: drop leading and trailing whitespace. -/
def pyStripL (l : List Char) : List Char :=
  ((l.dropWhile isPySpace).reverse.dropWhile isPySpace).reverse

/-- Worker for `re.sub(r'\s+', ' ', s)`: replace every maximal run of
whitespace by a single space.  The flag records whether the current
position is inside a whitespace run whose single space was already
emitted. -/
def collapseAux : Bool → List Char → List Char
  | _, [] => []
  | inRun, c :: rest =>
    if isPySpace c then
      if inRun then collapseAux true rest
      else ' ' :: collapseAux true rest
    else c :: collapseAux false rest

/-- `re.sub(r'\s+', ' ', s)` — collapse internal whitespace runs. -/
def collapseWS (l : List Char) : List Char := collapseAux false l

/-- A character is acceptable in normalized text when it is either
not whitespace at all or exactly a plain space. -/
def wsOk (c : Char) : Bool := !(isPySpace c) || c == ' '

/-- No two adjacent whitespace characters. -/
def noDoubleWS : List Char → Bool
  | [] => true
  | [_] => true
  | a :: b :: rest => !(isPySpace a && isPySpace b) && noDoubleWS (b :: rest)

/-- Text has normalized whitespace: every whitespace character is a plain
space and no two of them are adjacent.  This is exactly the guarantee of
`re.sub(r'\s+', ' ', s)`. -/
def wsNormalized (l : List Char) : Bool := l.all wsOk && noDoubleWS l

/-- Case-insensitive character equality (`re.IGNORECASE`). -/
def ciEqChar (a b : Char) : Bool := a.toLower == b.toLower

/-- Case-insensitive equality of equal-length character lists. -/
def ciEqList : List Char → List Char → Bool
  | [], [] => true
  | a :: as, b :: bs => ciEqChar a b && ciEqList as bs
  | _, _ => false

/-- Case-insensitive test that `p` occurs at the very start of `l`. -/
def ciStarts (p l : List Char) : Bool := ciEqList p (l.take p.length)

/-- Split a character list on a separator character (model of
`str.split(sep)` as used to tokenize dates; every occurrence of the
separator starts a new chunk). -/
def splitOnChar (sep : Char) : List Char → List (List Char)
  | [] => [[]]
  | c :: rest =>
    if c == sep then [] :: splitOnChar sep rest
    else
      match splitOnChar sep rest with
      | [] => [[c]]
      | p :: ps => (c :: p) :: ps

/-- Decimal value of a digit string. -/
def digitsToNat (l : List Char) : Nat :=
  l.foldl (fun a c => a * 10 + (c.toNat - 48)) 0

/-- All characters are ASCII digits. -/
def allDigits (l : List Char) : Bool := l.all Char.isDigit

/-! ## Whole-word regex search (`re.search(r'\b...\b', s, re.IGNORECASE)`) -/

/-- Word-boundary assertion `\b` at position `j` of `s` (positions run from
`0` to `s.length`): true when exactly one of the neighbouring characters is
a word character; out-of-range neighbours count as non-word. -/
def boundaryAt (s : List Char) (j : Nat) : Bool :=
  (if j == 0 then false else isWordChar (s.getD (j - 1) ' ')) !=
    isWordChar (s.getD j ' ')

/-- The pattern `\b<literal p>\b` matches `s` at start position `i`
(consuming exactly `p.length` characters, case-insensitively). -/
def matchWWAt (p s : List Char) (i : Nat) : Bool :=
  ciEqList p ((s.drop i).take p.length) && boundaryAt s i &&
    boundaryAt s (i + p.length)

/-- `re.search(r'\b<literal p>\b', s, re.IGNORECASE) is not None`:
some start position admits a match. -/
def reWholeWord (p s : List Char) : Bool :=
  (List.range (s.length + 1)).any (fun i => matchWWAt p s i)

/-- Propositional reading of `reWholeWord`: the whole-word pattern occurs
somewhere in the text. -/
def OccursWW (p s : List Char) : Prop :=
  ∃ i, i < s.length + 1 ∧ matchWWAt p s i = true

theorem reWholeWord_iff (p s : List Char) :
    reWholeWord p s = true ↔ OccursWW p s := by
  unfold reWholeWord OccursWW
  simp [List.any_eq_true, List.mem_range]

/-! ## The full-text abstract fallback pattern

Model of
`re.search(r'Abstract:?\s*(.{100,2000}?)(?:\n\n|\r\n\r\n|JEL|Keywords|$)',
text, re.IGNORECASE | re.DOTALL)` from `extract_paper_metadata`.
The search is leftmost; within one start position the engine tries the
optional colon consumed-first, `\s*` greedily (longest first), the bounded
repetition lazily (shortest first, 100 to 2000 characters, any character
because of DOTALL), and the terminator alternatives in written order.
Only `group(1)` — the captured text — is ever used by the caller. -/

/-- Exact (case-sensitive) test that `p` occurs at the start of `l`. -/
def plainStarts (p l : List Char) : Bool := decide (l.take p.length = p)

/-- The anchor `$` (no MULTILINE): end of string, or just before a final
newline. -/
def dollarAt (s : List Char) (j : Nat) : Bool :=
  j == s.length || (j + 1 == s.length && s.getD j ' ' == '\n')

/-- The terminator `(?:\n\n|\r\n\r\n|JEL|Keywords|$)` matches at
position `j` (the word alternatives case-insensitively, because
IGNORECASE covers the whole pattern). -/
def termAt (s : List Char) (j : Nat) : Bool :=
  plainStarts ('\n' :: '\n' :: []) (s.drop j) ||
  plainStarts ('\r' :: '\n' :: '\r' :: '\n' :: []) (s.drop j) ||
  ciStarts "JEL".data (s.drop j) ||
  ciStarts "Keywords".data (s.drop j) ||
  dollarAt s j

/-- Lazy bounded repetition: the least capture length `L` with
`100 ≤ L ≤ 2000` such that the terminator matches right after the
captured text starting at `j2`. -/
def findCapLen (s : List Char) (j2 : Nat) : Option Nat :=
  ((List.range 1901).map (fun k => 100 + k)).find?
    (fun L => decide (j2 + L ≤ s.length) && termAt s (j2 + L))

/-- The whole fallback search; returns `group(1)` of the first (leftmost,
backtracking-preferred) match, if any. -/
def reSearchAbstract (s : List Char) : Option (List Char) :=
  (List.range (s.length + 1)).findSome? (fun i =>
    if ciStarts "Abstract".data (s.drop i) then
      let j0 := i + 8
      let colonOpts : List Nat :=
        if s.getD j0 '!' == ':' then [j0 + 1, j0] else [j0]
      colonOpts.findSome? (fun j1 =>
        let wsMax := ((s.drop j1).takeWhile isPySpace).length
        ((List.range (wsMax + 1)).reverse).findSome? (fun k =>
          (findCapLen s (j1 + k)).map (fun L => (s.drop (j1 + k)).take L)))
    else none)

/-! ## Data model

`PaperData` is the dictionary built by `extract_paper_metadata` (field
order as in the source).  `Page` is the HTML-parser oracle: what
BeautifulSoup lookups return for the fetched document.  `AttemptOutcome`
is the outcome of one HTTP GET attempt inside `get_page`, and `World`
bundles the behaviour of the network and parser layers for one
extraction. -/

structure PaperData where
  paper_id : String
  url : String
  title : Option String
  authors : List String
  abstract : Option String
  pdf_url : Option String
  publication_date : Option String
  doi : Option String
  scraped_at : String
deriving DecidableEq

/-- Result of the BeautifulSoup lookups `extract_paper_metadata` performs:
`citation_*` fields are the `content` attributes of the meta tags when the
corresponding `find` succeeds; `citation_authors` lists the raw `content`
of every `citation_author` meta in document order; `abstractSelText` is
`get_text()` of the first abstract CSS selector that matches, if any;
`mainText` is `get_text()` of `main` (or, failing that, `body`) when
either exists. -/
structure Page where
  citation_title : Option String
  citation_authors : List String
  citation_doi : Option String
  citation_date : Option String
  citation_pdf : Option String
  abstractSelText : Option String
  mainText : Option String
deriving DecidableEq

/-- One GET attempt inside `get_page` either fails at the network layer
(`requests` raises a non-HTTP `RequestException`) or yields a response
with a status code and body. -/
inductive AttemptOutcome where
  | netFail
  | resp (status : Nat) (content : String)

structure HttpResponse where
  status : Nat
  content : String

/-- `requests.RequestException` as seen by this code: either a
connection-layer failure or the `HTTPError` raised by
`raise_for_status`. -/
inductive ReqError where
  | connectionError
  | httpError (status : Nat)
deriving DecidableEq

/-- Exceptions observable at the boundary of `extract_paper_metadata`:
a `requests.RequestException` propagated out of `get_page`, or any other
exception (e.g. from the HTML parser), matching the two `except` clauses
of the source. -/
inductive PyExn where
  | requestException (e : ReqError)
  | otherException (msg : String)

/-- External behaviour for one call to `extract_paper_metadata`:
the outcome of the i-th GET attempt, the parser's result on a given
response body, and the clock value used for `datetime.now().isoformat()`. -/
structure World where
  attempts : Nat → AttemptOutcome
  parse : String → Except String Page
  now : String

/-! ## Fetcher — `NBERScraper.get_page` -/

/-- `response.raise_for_status()`: raises `HTTPError` for 4xx and 5xx
status codes, otherwise returns the response unchanged. -/
def raise_for_status (r : HttpResponse) : Except ReqError HttpResponse :=
  if 400 ≤ r.status ∧ r.status < 600 then .error (.httpError r.status)
  else .ok r

/-- One iteration of the `for attempt in range(retries)` body: perform the
GET (attempt outcome given by the oracle) and apply `raise_for_status`. -/
def attemptOnce (o : AttemptOutcome) : Except ReqError HttpResponse :=
  match o with
  | .netFail => .error .connectionError
  | .resp st c => raise_for_status ⟨st, c⟩

/-- The retry loop of `get_page`: attempt index `i`, `remaining` attempts
left.  On failure with more attempts remaining it retries (after a delay,
which the pure model drops); on the final attempt it re-raises.  The
source always calls `get_page` with `retries = 3`, so `remaining = 0` is
never reached from `get_page` below. -/
def get_page_loop (attempts : Nat → AttemptOutcome) :
    Nat → Nat → Except ReqError HttpResponse
  | _, 0 => .error .connectionError
  | i, remaining + 1 =>
    match attemptOnce (attempts i) with
    | .ok r => .ok r
    | .error e =>
      match remaining with
      | 0 => .error e
      | r + 1 => get_page_loop attempts (i + 1) (r + 1)

/-- `NBERScraper.get_page` with its retry logic: up to `retries` attempts;
a response for which `raise_for_status` does not raise is returned; an
exhausted final attempt propagates its error to the caller. -/
def get_page (attempts : Nat → AttemptOutcome) (retries : Nat) :
    Except ReqError HttpResponse :=
  get_page_loop attempts 0 retries

/-! ## Extractor — `NBERScraper.extract_paper_metadata` -/

/-- Python truthiness of an optional string (`None` and `''` are falsy). -/
def pyTruthyS : Option String → Bool
  | none => false
  | some s => s != ""

/-- Python `str.strip()` on `String`. -/
def pyStrip (s : String) : String := ⟨pyStripL s.data⟩

/-- `re.sub(r'^Abstract:?\s*', '', t, flags=re.IGNORECASE)`: if the text
starts (case-insensitively) with the word `Abstract`, drop it together
with an optional following colon and any following run of whitespace. -/
def stripAbstractLabel (l : List Char) : List Char :=
  if ciStarts "Abstract".data l then
    let r := l.drop 8
    let r := match r with
             | ':' :: t => t
             | _ => r
    r.dropWhile isPySpace
  else l

/-- Cleaning applied to the text of a matched abstract selector:
`get_text().strip()`, then the leading-label strip, then whitespace
collapsing (lines 110–113 of the source). -/
def cleanSelectorText (t : String) : String :=
  ⟨collapseWS (stripAbstractLabel (pyStripL t.data))⟩

/-- The abstract computation of `extract_paper_metadata` (lines 96–127):
first the selector cascade (first matching selector wins, its text
cleaned), then — when the abstract is still falsy — the full-text
fallback search, whose captured group is stripped at the ends only. -/
def computeAbstract (p : Page) : Option String :=
  let afterSel : Option String := p.abstractSelText.map cleanSelectorText
  if pyTruthyS afterSel then afterSel
  else
    match p.mainText with
    | none => afterSel
    | some txt =>
      match reSearchAbstract txt.data with
      | some g => some ⟨pyStripL g⟩
      | none => afterSel

/-- `NBERScraper.extract_paper_metadata`.  The whole body runs under
`try/except`: a `requests.RequestException` escaping `get_page` and any
other exception (modelled: a parser failure) are each caught and turned
into `none`; a response whose stored status is 404 yields `none`; any
other response yields the populated paper dictionary. -/
def extract_paper_metadata (w : World) (base_url : String) (paper_number : Nat) :
    Option PaperData :=
  let url := base_url ++ "/papers/w" ++ toString paper_number
  match get_page w.attempts 3 with
  | .error _ => none
  | .ok response =>
    match w.parse response.content with
    | .error _ => none
    | .ok soup =>
      if response.status == 404 then none
      else
        some
          { paper_id := "w" ++ toString paper_number
            url := url
            title := soup.citation_title.map pyStrip
            authors := (soup.citation_authors.filter (fun c => c != "")).map pyStrip
            abstract := computeAbstract soup
            pdf_url := soup.citation_pdf.map pyStrip
            publication_date := soup.citation_date.map pyStrip
            doi := soup.citation_doi.map pyStrip
            scraped_at := w.now }

/-! ## Filter — `NBERScraper.matches_search_query` -/

/-- The fixed term list used when the query is exactly `"ai"`:
`\bai\b` plus the synonym patterns (source lines 160–167). -/
def aiTerms : List (List Char) :=
  ["ai".data, "artificial intelligence".data, "machine learning".data,
   "deep learning".data, "neural network".data, "algorithm".data]

/-- Lower-cased character view of an optional field,
`(paper_data.get(f) or '').lower()`. -/
def lowerOpt (o : Option String) : List Char := toLowerL (o.getD "").data

/-- `NBERScraper.matches_search_query`.  `search_query` is the stored
query (`__init__` lower-cases it).  An empty query matches everything;
otherwise the query is lowered and stripped, expanded to the synonym set
when it equals `"ai"`, and each term is searched as a whole word
(`\b...\b`, case-insensitive; `re.escape` makes the non-ai pattern a
literal) first in the title, then in the abstract. -/
def matches_search_query (search_query : String) (paper_data : PaperData) : Bool :=
  if search_query == "" then true
  else
    let query_lower := pyStripL (toLowerL search_query.data)
    let search_terms := if query_lower == "ai".data then aiTerms else [query_lower]
    let title := lowerOpt paper_data.title
    if search_terms.any (fun t => reWholeWord t title) then true
    else
      let abstract := lowerOpt paper_data.abstract
      search_terms.any (fun t => reWholeWord t abstract)

/-! ## Filter — `NBERScraper.matches_date_range`

`datetime.strptime` for the two formats the source uses is modelled after
CPython's `_strptime`: `%Y` is exactly four digits (and `datetime`
requires year ≥ 1), `%m` is one or two digits in 1–12, `%d` is one or two
digits in 1–31 and must be a real day of the parsed month; the separators
are literal; the whole string must be consumed.  A parsed date compares
lexicographically as (year, month, day). -/

/-- Days in a month, with Gregorian leap years. -/
def daysInMonth (y m : Nat) : Nat :=
  if m == 2 then (if y % 4 == 0 && (y % 100 != 0 || y % 400 == 0) then 29 else 28)
  else if m == 4 || m == 6 || m == 9 || m == 11 then 30
  else 31

/-- `datetime.strptime(s, '%Y<sep>%m<sep>%d')`, returning the date as
(year, month, day), or `none` when strptime (or the datetime
constructor) would raise `ValueError`. -/
def strptimeSep (sep : Char) (s : String) : Option (Nat × Nat × Nat) :=
  match splitOnChar sep s.data with
  | [ys, ms, ds] =>
    if allDigits ys && allDigits ms && allDigits ds &&
       ys.length == 4 &&
       decide (1 ≤ ms.length) && decide (ms.length ≤ 2) &&
       decide (1 ≤ ds.length) && decide (ds.length ≤ 2) then
      let y := digitsToNat ys
      let m := digitsToNat ms
      let d := digitsToNat ds
      if decide (1 ≤ y) && decide (1 ≤ m) && decide (m ≤ 12) &&
         decide (1 ≤ d) && decide (d ≤ daysInMonth y m) then
        some (y, m, d)
      else none
    else none
  | _ => none

/-- Strict `datetime` comparison on (year, month, day). -/
def dateLt (a b : Nat × Nat × Nat) : Bool :=
  decide (a.1 < b.1) ||
    (decide (a.1 = b.1) &&
      (decide (a.2.1 < b.2.1) ||
        (decide (a.2.1 = b.2.1) && decide (a.2.2 < b.2.2))))

/-- The paper-date branch of the source (lines 204–210): a value
containing `/` is parsed with `%Y/%m/%d`, else one containing `-` with
`%Y-%m-%d`, else it is unparseable; a strptime failure is caught by the
outer `except` and also counts as unparseable. -/
def pubDateParse (s : String) : Option (Nat × Nat × Nat) :=
  if s.data.contains '/' then strptimeSep '/' s
  else if s.data.contains '-' then strptimeSep '-' s
  else none

/-- The bound-parsing branch of the source (lines 213–218 and 226–231):
a bound containing `/` is parsed with `%Y/%m/%d`, otherwise with
`%Y-%m-%d`; a failure is swallowed (`except: pass`), i.e. `none`. -/
def boundDateParse (s : String) : Option (Nat × Nat × Nat) :=
  if s.data.contains '/' then strptimeSep '/' s else strptimeSep '-' s

/-- Specification-side date parse: try `YYYY/MM/DD`, then `YYYY-MM-DD`.
Stated from the spec's words ("Accepted date formats: YYYY/MM/DD and
YYYY-MM-DD"); lemmas below show both source parse branches compute
exactly this. -/
def specDateParse (s : String) : Option (Nat × Nat × Nat) :=
  match strptimeSep '/' s with
  | some d => some d
  | none => strptimeSep '-' s

/-- The `if self.start_date: try ... except: pass` block (source lines
212–223): the record is rejected when the start bound is truthy, parses,
and the paper date is strictly before it. -/
def startRejects (start_date : Option String)
    (paper_date : Nat × Nat × Nat) : Bool :=
  if pyTruthyS start_date then
    match boundDateParse (start_date.getD "") with
    | some start_dt => dateLt paper_date start_dt
    | none => false
  else false

/-- The `if self.end_date: try ... except: pass` block (source lines
225–236): the record is rejected when the end bound is truthy, parses,
and the paper date is strictly after it. -/
def endRejects (end_date : Option String)
    (paper_date : Nat × Nat × Nat) : Bool :=
  if pyTruthyS end_date then
    match boundDateParse (end_date.getD "") with
    | some end_dt => dateLt end_dt paper_date
    | none => false
  else false

/-- `NBERScraper.matches_date_range`. -/
def matches_date_range (start_date end_date : Option String)
    (paper_data : PaperData) : Bool :=
  if !pyTruthyS start_date && !pyTruthyS end_date then true
  else if !pyTruthyS paper_data.publication_date then true
  else
    match pubDateParse (paper_data.publication_date.getD "") with
    | none => true
    | some paper_date =>
      if startRejects start_date paper_date then false
      else if endRejects end_date paper_date then false
      else true

/-! ## Crawl Controller — the scan loop of `NBERScraper.scrape_papers`

The loop of lines 295–359 is embedded as a state machine.  The instance
fields it reads (`search_query`, `start_date`, `end_date`) form
`CrawlConfig`; the local loop variables plus the mutable `self.papers`
list form `CrawlState`.  Extraction is the oracle
`extract : Nat → Option PaperData` (one call per cursor value).  The
side effects the loop performs — PDF download, periodic
`save_to_json`, logging — touch no state the loop itself reads, so the
pure model drops them.  `StopReason` records which of the four `break`
conditions fired. -/

structure CrawlConfig where
  search_query : String
  start_date : Option String
  end_date : Option String

structure CrawlState where
  papers : List PaperData
  papers_checked : Nat
  papers_found : Nat
  consecutive_failures : Nat
  current_number : Nat
deriving DecidableEq

inductive StopReason where
  | limitPapers
  | limitPages
  | failuresReached
  | exhausted
deriving DecidableEq

/-- Python truthiness of an optional integer argument
(`None` and `0` are falsy). -/
def pyTruthyNat : Option Nat → Bool
  | none => false
  | some n => n != 0

/-- The four stop checks at the top of the loop, in source order:
`max_papers and papers_found >= max_papers`, then
`max_pages and papers_checked >= max_pages`, then
`consecutive_failures >= max_consecutive_failures`, then
`current_number <= 0`. -/
def stopCheck (max_papers max_pages : Option Nat) (maxFail : Nat)
    (s : CrawlState) : Option StopReason :=
  if pyTruthyNat max_papers && decide (s.papers_found ≥ max_papers.getD 0) then
    some .limitPapers
  else if pyTruthyNat max_pages && decide (s.papers_checked ≥ max_pages.getD 0) then
    some .limitPages
  else if decide (s.consecutive_failures ≥ maxFail) then some .failuresReached
  else if decide (s.current_number ≤ 0) then some .exhausted
  else none

/-- One pass of the loop body after the stop checks: increment
`papers_checked`, extract; on `None` increment `consecutive_failures`;
otherwise reset the failure counter to 0, then append the paper and
increment `papers_found` if both filters pass; finally decrement the
cursor (lines 325–352). -/
def scrapeStep (cfg : CrawlConfig) (extract : Nat → Option PaperData)
    (s : CrawlState) : CrawlState :=
  let s1 := { s with papers_checked := s.papers_checked + 1 }
  match extract s1.current_number with
  | none =>
    { s1 with consecutive_failures := s1.consecutive_failures + 1
              current_number := s1.current_number - 1 }
  | some paper_data =>
    let s2 := { s1 with consecutive_failures := 0 }
    let s3 :=
      if matches_search_query cfg.search_query paper_data &&
         matches_date_range cfg.start_date cfg.end_date paper_data then
        { s2 with papers := s2.papers ++ [paper_data]
                  papers_found := s2.papers_found + 1 }
      else s2
    { s3 with current_number := s3.current_number - 1 }

/-- The `while True` loop.  `fuel` is a ghost bound on the number of
iterations used to phrase the recursion structurally; since every
iteration decrements the cursor by exactly one and the loop stops as soon
as the cursor reaches 0, any `fuel ≥ current_number` is enough, and
`scrapeLoop_fuel_irrelevant` below proves the result does not depend on
the chosen fuel.  The threshold 50 is the hard-coded
`max_consecutive_failures` of line 298. -/
def scrapeLoop (cfg : CrawlConfig) (extract : Nat → Option PaperData)
    (max_papers max_pages : Option Nat) :
    Nat → CrawlState → CrawlState × StopReason
  | fuel, s =>
    match stopCheck max_papers max_pages 50 s with
    | some r => (s, r)
    | none =>
      match fuel with
      | 0 => (s, .exhausted)
      | f + 1 => scrapeLoop cfg extract max_papers max_pages f (scrapeStep cfg extract s)

/-- The scan of `NBERScraper.scrape_papers` for an explicitly supplied
`start_number` (the auto-detection probe of lines 277–293 is skipped by
the source in that case).  `papers0` is the content of `self.papers` when
the call begins; the source returns `self.papers`, i.e. the `papers`
field of the final state. -/
def scrape_papers (cfg : CrawlConfig) (extract : Nat → Option PaperData)
    (max_papers max_pages : Option Nat) (start_number : Nat)
    (papers0 : List PaperData) : CrawlState × StopReason :=
  scrapeLoop cfg extract max_papers max_pages start_number
    ⟨papers0, 0, 0, 0, start_number⟩

/-! ## Concrete fixtures used by the claim theorems below -/

/-- A parse result with no recognizable metadata at all. -/
def pageC1 : Page := ⟨none, [], none, none, none, none, none⟩

/-- A world in which the server answers HTTP 404 on every GET attempt. -/
def wC1 : World :=
  ⟨fun _ => AttemptOutcome.resp 404 "not found", fun _ => Except.ok pageC1,
   "2025-01-01T00:00:00"⟩

def cfgC4 : CrawlConfig := ⟨"", none, none⟩

def pdC4 : PaperData := ⟨"w9", "u", none, [], none, none, none, none, "t"⟩

def stC4 : CrawlState := ⟨[], 3, 1, 7, 42⟩

/-- A record whose abstract mentions a neural network but contains no
standalone word "ai". -/
def pdNeural : PaperData :=
  ⟨"w11", "u", some "Wage Dynamics", [],
   some "We estimate a neural network model of wage dynamics.",
   none, none, none, "t"⟩

/-- A record whose title contains "collaborative" (so the substring
"labor") but no standalone word "labor". -/
def pdCollab : PaperData :=
  ⟨"w12", "u", some "Collaborative Approaches in Economics", [],
   none, none, none, none, "t"⟩

/-- A record whose title contains the standalone word "growth". -/
def pdGrowth : PaperData :=
  ⟨"w13", "u", some "Economic Growth", [], none, none, none, none, "t"⟩

/-- A record with no publication date. -/
def pdNoDate : PaperData :=
  ⟨"w14", "u", none, [], none, none, none, none, "t"⟩

/-- A record published 2022/05/01. -/
def pdDated : PaperData :=
  ⟨"w15", "u", none, [], none, none, some "2022/05/01", none, "t"⟩

/-- Text captured by the fallback abstract pattern in the C8
counterexample: longer than 100 characters and containing two internal
double spaces. -/
def bodyC8 : String :=
  "We study how firms adjust wages.  Our data cover two decades and show that pay  responds slowly to shocks."

/-- A page whose abstract is only available through the full-text
fallback. -/
def pgC8 : Page :=
  ⟨none, [], none, none, none, none, some ("Abstract: " ++ bodyC8)⟩

/-- A world serving `pgC8` on a 200 response. -/
def wC8 : World :=
  ⟨fun _ => AttemptOutcome.resp 200 "html", fun _ => Except.ok pgC8,
   "2025-01-01T00:00:00"⟩

/-- Selector text exercising the structural cleaning path. -/
def tC8 : String := "  Abstract:  A  b "

/-- A page whose abstract selector matches with text `tC8`. -/
def pgC8sel : Page := ⟨none, [], none, none, none, some tC8, none⟩

def pdC10 : PaperData := ⟨"w16", "u", none, [], none, none, none, none, "t"⟩

def cfgC10 : CrawlConfig := ⟨"", none, none⟩

/-! ## Supporting lemmas -/

/-- One-step unfolding of the scan loop. -/
theorem scrapeLoop_unfold (cfg : CrawlConfig) (extract : Nat → Option PaperData)
    (mp mpg : Option Nat) (fuel : Nat) (s : CrawlState) :
    scrapeLoop cfg extract mp mpg fuel s =
      match stopCheck mp mpg 50 s with
      | some r => (s, r)
      | none =>
        match fuel with
        | 0 => (s, .exhausted)
        | f + 1 => scrapeLoop cfg extract mp mpg f (scrapeStep cfg extract s) := by
  cases fuel <;> (conv_lhs => rw [scrapeLoop])

/-- Every branch of the loop body decrements the cursor by exactly one. -/
theorem scrapeStep_current_number (cfg : CrawlConfig)
    (extract : Nat → Option PaperData) (s : CrawlState) :
    (scrapeStep cfg extract s).current_number = s.current_number - 1 := by
  unfold scrapeStep
  cases h : extract s.current_number with
  | none => simp [h]
  | some pd => simp only [h]; split <;> rfl

/-- When no stop condition fires, the cursor is still positive. -/
theorem stopCheck_none_cursor (mp mpg : Option Nat) (mf : Nat) (s : CrawlState)
    (h : stopCheck mp mpg mf s = none) : s.current_number ≠ 0 := by
  intro h0
  unfold stopCheck at h
  rw [h0] at h
  simp at h
  split at h
  · cases h
  · split at h
    · cases h
    · split at h
      · cases h
      · cases h

/-- When the cursor is 0, some stop condition fires. -/
theorem stopCheck_cursor_zero (mp mpg : Option Nat) (mf : Nat) (s : CrawlState)
    (h : s.current_number = 0) : ∃ r, stopCheck mp mpg mf s = some r := by
  unfold stopCheck
  rw [h]
  split
  · exact ⟨_, rfl⟩
  · split
    · exact ⟨_, rfl⟩
    · split
      · exact ⟨_, rfl⟩
      · exact ⟨_, by rw [if_pos (by decide)]⟩

/-- The explicit fuel of `scrapeLoop` is a ghost: any fuel at least the
cursor value gives the same run (the loop always stops by the time the
cursor reaches 0, so the out-of-fuel branch is never taken). -/
theorem scrapeLoop_fuel_irrelevant (cfg : CrawlConfig)
    (extract : Nat → Option PaperData) (mp mpg : Option Nat) :
    ∀ f1 f2 s, s.current_number ≤ f1 → s.current_number ≤ f2 →
      scrapeLoop cfg extract mp mpg f1 s = scrapeLoop cfg extract mp mpg f2 s := by
  intro f1
  induction f1 with
  | zero =>
    intro f2 s h1 _
    obtain ⟨r, hr⟩ := stopCheck_cursor_zero mp mpg 50 s (Nat.le_zero.mp h1)
    rw [scrapeLoop_unfold, scrapeLoop_unfold, hr]
  | succ f ih =>
    intro f2 s h1 h2
    rw [scrapeLoop_unfold cfg extract mp mpg (f + 1) s, scrapeLoop_unfold cfg extract mp mpg f2 s]
    cases hsc : stopCheck mp mpg 50 s with
    | some r => rfl
    | none =>
      have hcur : s.current_number ≠ 0 := stopCheck_none_cursor mp mpg 50 s hsc
      cases f2 with
      | zero => exact absurd (Nat.le_zero.mp h2) hcur
      | succ g =>
        have hstep : (scrapeStep cfg extract s).current_number = s.current_number - 1 :=
          scrapeStep_current_number cfg extract s
        exact ih (g) (scrapeStep cfg extract s)
          (by rw [hstep]; omega) (by rw [hstep]; omega)


/-- One pass of the loop body only ever appends to `self.papers`. -/
theorem scrapeStep_papers_extends (cfg : CrawlConfig)
    (extract : Nat → Option PaperData) (s : CrawlState) :
    ∃ d, (scrapeStep cfg extract s).papers = s.papers ++ d := by
  unfold scrapeStep
  cases h : extract s.current_number with
  | none => exact ⟨[], by simp [h]⟩
  | some pd =>
    simp only [h]
    split
    · exact ⟨[pd], rfl⟩
    · exact ⟨[], by simp⟩

/-- The whole scan only ever appends to `self.papers`. -/
theorem scrapeLoop_papers_extends (cfg : CrawlConfig)
    (extract : Nat → Option PaperData) (mp mpg : Option Nat) :
    ∀ fuel s, ∃ d,
      (scrapeLoop cfg extract mp mpg fuel s).1.papers = s.papers ++ d := by
  intro fuel
  induction fuel with
  | zero =>
    intro s
    rw [scrapeLoop_unfold]
    cases stopCheck mp mpg 50 s with
    | some r => exact ⟨[], by simp⟩
    | none => exact ⟨[], by simp⟩
  | succ f ih =>
    intro s
    rw [scrapeLoop_unfold]
    cases stopCheck mp mpg 50 s with
    | some r => exact ⟨[], by simp⟩
    | none =>
      obtain ⟨d1, hd1⟩ := scrapeStep_papers_extends cfg extract s
      obtain ⟨d2, hd2⟩ := ih (scrapeStep cfg extract s)
      exact ⟨d1 ++ d2, by rw [hd2, hd1, List.append_assoc]⟩

/-- A `max_papers` argument of `0` produces the very same stop decision as
`None` (both are falsy in the `if max_papers and ...` test). -/
theorem stopCheck_mp_zero (mpg : Option Nat) (mf : Nat) (s : CrawlState) :
    stopCheck (some 0) mpg mf s = stopCheck none mpg mf s := rfl

/-- A `max_pages` argument of `0` produces the very same stop decision as
`None`. -/
theorem stopCheck_mpg_zero (mp : Option Nat) (mf : Nat) (s : CrawlState) :
    stopCheck mp (some 0) mf s = stopCheck mp none mf s := by
  unfold stopCheck pyTruthyNat
  rfl

/-- The scan with `max_papers = 0` coincides with the unlimited scan. -/
theorem scrapeLoop_mp_zero (cfg : CrawlConfig)
    (extract : Nat → Option PaperData) (mpg : Option Nat) :
    ∀ fuel s, scrapeLoop cfg extract (some 0) mpg fuel s =
      scrapeLoop cfg extract none mpg fuel s := by
  intro fuel
  induction fuel with
  | zero =>
    intro s
    rw [scrapeLoop_unfold, scrapeLoop_unfold, stopCheck_mp_zero]
  | succ f ih =>
    intro s
    rw [scrapeLoop_unfold, scrapeLoop_unfold, stopCheck_mp_zero]
    cases stopCheck none mpg 50 s with
    | some r => rfl
    | none => simpa using ih (scrapeStep cfg extract s)

/-- The scan with `max_pages = 0` coincides with the unlimited scan. -/
theorem scrapeLoop_mpg_zero (cfg : CrawlConfig)
    (extract : Nat → Option PaperData) (mp : Option Nat) :
    ∀ fuel s, scrapeLoop cfg extract mp (some 0) fuel s =
      scrapeLoop cfg extract mp none fuel s := by
  intro fuel
  induction fuel with
  | zero =>
    intro s
    rw [scrapeLoop_unfold, scrapeLoop_unfold, stopCheck_mpg_zero]
  | succ f ih =>
    intro s
    rw [scrapeLoop_unfold, scrapeLoop_unfold, stopCheck_mpg_zero]
    cases stopCheck mp none 50 s with
    | some r => rfl
    | none => simpa using ih (scrapeStep cfg extract s)

/-- Splitting a list that does not contain the separator yields the list
itself as the single chunk. -/
theorem splitOnChar_of_not_mem (sep : Char) (l : List Char) (h : sep ∉ l) :
    splitOnChar sep l = [l] := by
  induction l with
  | nil => rfl
  | cons c rest ih =>
    unfold splitOnChar
    have hc : (c == sep) = false := by
      simp only [beq_eq_false_iff_ne]
      intro he
      exact h (he ▸ List.mem_cons_self c rest)
    rw [hc]
    simp only [Bool.false_eq_true, if_false]
    rw [ih (fun hm => h (List.mem_cons_of_mem c hm))]

/-- `splitOnChar` never produces an empty chunk list. -/
theorem splitOnChar_ne_nil (sep : Char) (l : List Char) :
    splitOnChar sep l ≠ [] := by
  cases l with
  | nil => simp [splitOnChar]
  | cons c rest =>
    unfold splitOnChar
    cases h : c == sep with
    | true => simp
    | false =>
      simp only [Bool.false_eq_true, if_false]
      cases hs : splitOnChar sep rest <;> simp

/-- Every non-separator character of the list lands in some chunk. -/
theorem mem_splitOnChar (sep c : Char) (l : List Char)
    (hc : c ∈ l) (hne : c ≠ sep) :
    ∃ p ∈ splitOnChar sep l, c ∈ p := by
  induction l with
  | nil => cases hc
  | cons a rest ih =>
    unfold splitOnChar
    cases ha : a == sep with
    | true =>
      simp only [if_true]
      rcases List.mem_cons.mp hc with h1 | h2
      · exact absurd (h1 ▸ (beq_iff_eq.mp ha)) hne
      · obtain ⟨p, hp, hcp⟩ := ih h2
        exact ⟨p, List.mem_cons_of_mem _ hp, hcp⟩
    | false =>
      simp only [Bool.false_eq_true, if_false]
      cases hs : splitOnChar sep rest with
      | nil => exact absurd hs (splitOnChar_ne_nil sep rest)
      | cons p ps =>
        rcases List.mem_cons.mp hc with h1 | h2
        · exact ⟨a :: p, List.mem_cons_self _ _, h1 ▸ List.mem_cons_self c _⟩
        · obtain ⟨q, hq, hcq⟩ := ih h2
          rw [hs] at hq
          rcases List.mem_cons.mp hq with hq1 | hq2
          · exact ⟨a :: p, List.mem_cons_self _ _,
              List.mem_cons_of_mem a (hq1 ▸ hcq)⟩
          · exact ⟨q, List.mem_cons_of_mem _ hq2, hcq⟩

/-- A string without the separator cannot be parsed by strptime for the
format using that separator. -/
theorem strptimeSep_none_of_not_contains (sep : Char) (s : String)
    (h : s.data.contains sep = false) : strptimeSep sep s = none := by
  unfold strptimeSep
  rw [splitOnChar_of_not_mem sep s.data (by simpa using h)]

/-- A string containing a character that is neither a digit nor the
separator cannot be parsed by strptime for that separator's format. -/
theorem strptimeSep_none_of_bad_char (sep c : Char) (s : String)
    (hc : c ∈ s.data) (hne : c ≠ sep) (hd : c.isDigit = false) :
    strptimeSep sep s = none := by
  unfold strptimeSep
  obtain ⟨p, hp, hcp⟩ := mem_splitOnChar sep c s.data hc hne
  cases hsp : splitOnChar sep s.data with
  | nil => rfl
  | cons q qs =>
    rw [hsp] at hp
    cases qs with
    | nil => rfl
    | cons q2 qs2 =>
      cases qs2 with
      | nil => rfl
      | cons q3 qs3 =>
        cases qs3 with
        | nil =>
          -- three chunks: the one containing `c` fails `allDigits`
          have hbad : ∀ r, c ∈ r → allDigits r = false := by
            intro r hcr
            cases hall : allDigits r with
            | false => rfl
            | true =>
              exact absurd (List.all_eq_true.mp hall c hcr) (by simp [hd])
          simp only [List.mem_cons, List.not_mem_nil, or_false] at hp
          rcases hp with h1 | h1 | h1
          · simp [hbad q (h1 ▸ hcp)]
          · simp [hbad q2 (h1 ▸ hcp)]
          · simp [hbad q3 (h1 ▸ hcp)]
        | cons _ _ => rfl

/-- The paper-date branch order of the source computes exactly the
specification's "either accepted format" parse. -/
theorem pubDateParse_eq_spec (s : String) : pubDateParse s = specDateParse s := by
  unfold pubDateParse specDateParse
  cases hsl : s.data.contains '/' with
  | true =>
    simp only [if_true]
    cases hp : strptimeSep '/' s with
    | some d => rfl
    | none =>
      rw [strptimeSep_none_of_bad_char '-' '/' s (by simpa using hsl)
        (by decide) (by decide)]
  | false =>
    simp only [Bool.false_eq_true, if_false]
    rw [strptimeSep_none_of_not_contains '/' s hsl]
    cases hdash : s.data.contains '-' with
    | true => simp
    | false =>
      simp only [Bool.false_eq_true, if_false]
      rw [strptimeSep_none_of_not_contains '-' s hdash]

/-- The bound-date branch order of the source computes exactly the
specification's "either accepted format" parse. -/
theorem boundDateParse_eq_spec (s : String) :
    boundDateParse s = specDateParse s := by
  unfold boundDateParse specDateParse
  cases hsl : s.data.contains '/' with
  | true =>
    simp only [if_true]
    cases hp : strptimeSep '/' s with
    | some d => rfl
    | none =>
      rw [strptimeSep_none_of_bad_char '-' '/' s (by simpa using hsl)
        (by decide) (by decide)]
  | false =>
    simp only [Bool.false_eq_true, if_false]
    rw [strptimeSep_none_of_not_contains '/' s hsl]

/-- Every character emitted by the collapsing substitution is either
non-whitespace or a plain space. -/
theorem collapseAux_all_wsOk (l : List Char) :
    ∀ b, (collapseAux b l).all wsOk = true := by
  induction l with
  | nil => intro b; rfl
  | cons c rest ih =>
    intro b
    unfold collapseAux
    cases hc : isPySpace c with
    | true =>
      cases b with
      | true => simpa using ih true
      | false =>
        simp only [Bool.false_eq_true, if_false, if_true]
        rw [List.all_cons]
        have : wsOk ' ' = true := by decide
        rw [this, ih true]
        rfl
    | false =>
      simp only [Bool.false_eq_true, if_false]
      rw [List.all_cons]
      have : wsOk c = true := by unfold wsOk; rw [hc]; rfl
      rw [this, ih false]
      rfl

/-- After the collapsing substitution has just emitted a space (flag set),
the next emitted character is never whitespace. -/
theorem collapseAux_true_head (l : List Char) :
    ∀ c rest, collapseAux true l = c :: rest → isPySpace c = false := by
  induction l with
  | nil => intro c rest h; cases h
  | cons a tl ih =>
    intro c rest h
    unfold collapseAux at h
    cases ha : isPySpace a with
    | true =>
      rw [ha] at h
      exact ih c rest (by simpa using h)
    | false =>
      rw [ha] at h
      simp only [Bool.false_eq_true, if_false, List.cons.injEq] at h
      rw [← h.1]
      exact ha

/-- The collapsing substitution never emits two adjacent whitespace
characters. -/
theorem collapseAux_noDoubleWS (l : List Char) :
    ∀ b, noDoubleWS (collapseAux b l) = true := by
  induction l with
  | nil => intro b; rfl
  | cons c rest ih =>
    intro b
    unfold collapseAux
    cases hc : isPySpace c with
    | true =>
      cases b with
      | true => simpa using ih true
      | false =>
        simp only [Bool.false_eq_true, if_false, if_true]
        cases hx : collapseAux true rest with
        | nil => rfl
        | cons y ys =>
          unfold noDoubleWS
          rw [collapseAux_true_head rest y ys hx]
          have := ih true
          rw [hx] at this
          simp [this]
    | false =>
      simp only [Bool.false_eq_true, if_false]
      cases hx : collapseAux false rest with
      | nil => rfl
      | cons y ys =>
        unfold noDoubleWS
        rw [hc]
        have := ih false
        rw [hx] at this
        simp [this]

/-- `re.sub(r'\s+', ' ', s)` always produces whitespace-normalized text. -/
theorem wsNormalized_collapseWS (l : List Char) :
    wsNormalized (collapseWS l) = true := by
  unfold wsNormalized collapseWS
  rw [collapseAux_all_wsOk l false, collapseAux_noDoubleWS l false]
  rfl

/-- Unfolding of `matches_search_query` for a non-empty stored query:
the result is the term scan over the title joined with the term scan over
the abstract. -/
theorem matches_search_query_eq (q : String) (pd : PaperData)
    (hq : (q == "") = false) :
    matches_search_query q pd =
      ((if pyStripL (toLowerL q.data) == "ai".data then aiTerms
        else [pyStripL (toLowerL q.data)]).any
          (fun t => reWholeWord t (lowerOpt pd.title)) ||
       (if pyStripL (toLowerL q.data) == "ai".data then aiTerms
        else [pyStripL (toLowerL q.data)]).any
          (fun t => reWholeWord t (lowerOpt pd.abstract))) := by
  unfold matches_search_query
  rw [hq]
  simp only [Bool.false_eq_true, if_false]
  cases h1 : (if pyStripL (toLowerL q.data) == "ai".data then aiTerms
      else [pyStripL (toLowerL q.data)]).any
        (fun t => reWholeWord t (lowerOpt pd.title)) <;> simp [h1]

/-- The empty string parses in neither date format. -/
theorem specDateParse_empty : specDateParse "" = none := rfl

/-- A falsy bound (absent or empty) admits no parsed bound date. -/
theorem noBound_of_falsy (o : Option String) (h : pyTruthyS o = false) :
    ∀ s b, o = some s → specDateParse s = some b → False := by
  intro s b ho hp
  rw [ho] at h
  have hs : s = "" := by simpa [pyTruthyS] using h
  rw [hs, specDateParse_empty] at hp
  cases hp

/-- The bound-rejection test of `matches_date_range` (for either bound)
fires exactly when the bound is present and parseable and the comparison
`f` holds of the parsed bound. -/
theorem boundRej_iff (o : Option String) (f : Nat × Nat × Nat → Bool) :
    (if pyTruthyS o = true then
       match boundDateParse (o.getD "") with
       | some bd => f bd
       | none => false
     else false) = true ↔
      ∃ s b, o = some s ∧ specDateParse s = some b ∧ f b = true := by
  cases o with
  | none => simp [pyTruthyS]
  | some s =>
    by_cases hs : s = ""
    · subst hs
      simp [pyTruthyS, specDateParse_empty]
    · have ht : pyTruthyS (some s) = true := by simp [pyTruthyS, hs]
      rw [if_pos ht]
      rw [show (some s).getD "" = s from rfl, boundDateParse_eq_spec]
      cases hb : specDateParse s with
      | none => simp [hb]
      | some b =>
        constructor
        · intro h
          exact ⟨s, b, rfl, hb, h⟩
        · rintro ⟨s2, b2, hs2, hp2, hf2⟩
          injection hs2 with h2
          subst h2
          rw [hb] at hp2
          injection hp2 with h3
          subst h3
          exact hf2

/-- The two sequential rejection gates produce `false` exactly when one of
them fires. -/
theorem ifRej_false_iff (a b : Bool) :
    (if a = true then false else if b = true then false else true) = false ↔
      (a = true ∨ b = true) := by
  cases a <;> cases b <;> simp

/-- The start-bound gate fires exactly when a present, parseable start
bound is strictly after the paper date. -/
theorem startRejects_iff (o : Option String) (d : Nat × Nat × Nat) :
    startRejects o d = true ↔
      ∃ s b, o = some s ∧ specDateParse s = some b ∧ dateLt d b = true := by
  unfold startRejects
  exact boundRej_iff o (fun bd => dateLt d bd)

/-- The end-bound gate fires exactly when a present, parseable end bound
is strictly before the paper date. -/
theorem endRejects_iff (o : Option String) (d : Nat × Nat × Nat) :
    endRejects o d = true ↔
      ∃ s b, o = some s ∧ specDateParse s = some b ∧ dateLt b d = true := by
  unfold endRejects
  exact boundRej_iff o (fun bd => dateLt bd d)

/-! ## Claim theorems -/

/-- C1 (code_bug evidence).  The claim — and the dead check
`if response.status_code == 404: return None` on line 56 of the source —
expect `get_page` to hand a non-retryable non-2xx response back to
`extract_paper_metadata` as a normal response.  In fact `get_page` calls
`response.raise_for_status()` on every attempt, so a 404 raises
`HTTPError`, is retried three times, and finally propagates; the
extractor's `except requests.RequestException` handler then maps it to
`None` by the very same path a network-layer failure takes.  Evaluated at
a world whose every GET attempt yields status 404: `get_page` errors
instead of returning the response, and the extraction is `none` via the
exception path. -/
theorem claim_C1 :
    get_page wC1.attempts 3 = Except.error (ReqError.httpError 404) ∧
    extract_paper_metadata wC1 "https://www.nber.org" 100 = none :=
  ⟨rfl, rfl⟩

/-- C2.  For every behaviour of the fetch and parse layers and every paper
number `n`, `extract_paper_metadata` either returns `none` or returns a
record whose `paper_id` is `"w"` followed by `n` and whose `url` is
derived deterministically from `n`; the two `except` handlers convert
every modelled exception to `none`, so nothing escapes its boundary. -/
theorem claim_C2 : ∀ (w : World) (base_url : String) (n : Nat),
    extract_paper_metadata w base_url n = none ∨
    ∃ rec : PaperData, extract_paper_metadata w base_url n = some rec ∧
      rec.paper_id = "w" ++ toString n ∧
      rec.url = base_url ++ "/papers/w" ++ toString n := by
  intro w base_url n
  unfold extract_paper_metadata
  cases hg : get_page w.attempts 3 with
  | error e => exact Or.inl rfl
  | ok response =>
    dsimp only
    cases hp : w.parse response.content with
    | error m => exact Or.inl rfl
    | ok soup =>
      dsimp only
      cases h4 : response.status == 404 with
      | true => exact Or.inl rfl
      | false =>
        exact Or.inr ⟨⟨"w" ++ toString n, base_url ++ "/papers/w" ++ toString n,
          soup.citation_title.map pyStrip,
          (soup.citation_authors.filter (fun c => c != "")).map pyStrip,
          computeAbstract soup, soup.citation_pdf.map pyStrip,
          soup.citation_date.map pyStrip, soup.citation_doi.map pyStrip, w.now⟩,
          rfl, rfl, rfl⟩

set_option maxRecDepth 100000 in
/-- C3.  Starting the scan at cursor 200 with every extraction returning
`None` and no limits set, the run stops through the consecutive-failure
threshold (hard-coded 50) with the cursor at 150, 50 papers checked, 0
papers found, and `self.papers` still empty — for any instance
configuration. -/
theorem claim_C3 : ∀ cfg : CrawlConfig,
    scrape_papers cfg (fun _ => none) none none 200 [] =
      (⟨[], 50, 0, 50, 150⟩, StopReason.failuresReached) :=
  fun _ => rfl

/-- C4.  Within one pass of the scan-loop body, a non-`None` extraction
resets `consecutive_failures` to 0 — before and therefore regardless of
the filter outcome, since the filter branch never touches the counter —
while a `None` extraction increments it by exactly one; these are the only
two ways the counter changes. -/
theorem claim_C4 : ∀ (cfg : CrawlConfig) (extract : Nat → Option PaperData)
    (s : CrawlState),
    (∀ pd, extract s.current_number = some pd →
      (scrapeStep cfg extract s).consecutive_failures = 0) ∧
    (extract s.current_number = none →
      (scrapeStep cfg extract s).consecutive_failures =
        s.consecutive_failures + 1) := by
  intro cfg extract s
  constructor
  · intro pd h
    unfold scrapeStep
    simp only [h]
    split <;> rfl
  · intro h
    unfold scrapeStep
    simp [h]

/-- Witness for C4 at a concrete state with a nonzero failure streak. -/
theorem claim_C4_witness :
    (scrapeStep cfgC4 (fun _ => some pdC4) stC4).consecutive_failures = 0 ∧
    (scrapeStep cfgC4 (fun _ => none) stC4).consecutive_failures =
      stC4.consecutive_failures + 1 :=
  ⟨(claim_C4 cfgC4 (fun _ => some pdC4) stC4).1 pdC4 rfl,
   (claim_C4 cfgC4 (fun _ => none) stC4).2 rfl⟩

/-- C9.  A `max_papers` or `max_pages` argument of `0` is falsy in the
`if max_papers and ...` / `if max_pages and ...` guards, so the
corresponding limit check never fires: the whole scan behaves exactly as
with `None` (unlimited) — in particular it does not stop immediately with
an empty result. -/
theorem claim_C9 : ∀ (cfg : CrawlConfig) (extract : Nat → Option PaperData)
    (mp mpg : Option Nat) (start_number : Nat) (papers0 : List PaperData),
    scrape_papers cfg extract (some 0) mpg start_number papers0 =
      scrape_papers cfg extract none mpg start_number papers0 ∧
    scrape_papers cfg extract mp (some 0) start_number papers0 =
      scrape_papers cfg extract mp none start_number papers0 := by
  intro cfg extract mp mpg start_number papers0
  exact ⟨scrapeLoop_mp_zero cfg extract mpg start_number _,
         scrapeLoop_mpg_zero cfg extract mp start_number _⟩

/-- C10.  `self.papers` is append-only: any run of the scan returns the
initial list extended by the records it accepted, and a second run on the
same instance starts from — and preserves — everything the first run
collected, so every record present before either run is still in the list
the second run returns. -/
theorem claim_C10 : ∀ (cfg1 : CrawlConfig) (e1 : Nat → Option PaperData)
    (mp1 mpg1 : Option Nat) (st1 : Nat) (cfg2 : CrawlConfig)
    (e2 : Nat → Option PaperData) (mp2 mpg2 : Option Nat) (st2 : Nat)
    (papers0 : List PaperData),
    (∃ d1, (scrape_papers cfg1 e1 mp1 mpg1 st1 papers0).1.papers =
      papers0 ++ d1) ∧
    (∀ r, r ∈ papers0 →
      r ∈ (scrape_papers cfg2 e2 mp2 mpg2 st2
            ((scrape_papers cfg1 e1 mp1 mpg1 st1 papers0).1.papers)).1.papers) := by
  intro cfg1 e1 mp1 mpg1 st1 cfg2 e2 mp2 mpg2 st2 papers0
  obtain ⟨d1, hd1⟩ := scrapeLoop_papers_extends cfg1 e1 mp1 mpg1 st1
    ⟨papers0, 0, 0, 0, st1⟩
  obtain ⟨d2, hd2⟩ := scrapeLoop_papers_extends cfg2 e2 mp2 mpg2 st2
    ⟨(scrape_papers cfg1 e1 mp1 mpg1 st1 papers0).1.papers, 0, 0, 0, st2⟩
  constructor
  · exact ⟨d1, hd1⟩
  · intro r hr
    show r ∈ (scrapeLoop cfg2 e2 mp2 mpg2 st2
      ⟨(scrape_papers cfg1 e1 mp1 mpg1 st1 papers0).1.papers, 0, 0, 0, st2⟩).1.papers
    rw [hd2]
    refine List.mem_append_left d2 ?_
    show r ∈ (scrapeLoop cfg1 e1 mp1 mpg1 st1 ⟨papers0, 0, 0, 0, st1⟩).1.papers
    rw [hd1]
    exact List.mem_append_left d1 hr

/-- Witness for C10: a pre-existing record survives two successive runs. -/
theorem claim_C10_witness :
    pdC10 ∈ (scrape_papers cfgC10 (fun _ => none) none none 0
      ((scrape_papers cfgC10 (fun _ => none) none none 0 [pdC10]).1.papers)).1.papers :=
  (claim_C10 cfgC10 (fun _ => none) none none 0 cfgC10 (fun _ => none)
    none none 0 [pdC10]).2 pdC10 (by simp)

/-- C5.  For the stored query `"ai"` (`__init__` lower-cases the query the
caller passed), `matches_search_query` returns true exactly when one of
the six whole-word patterns — ai, artificial intelligence, machine
learning, deep learning, neural network, algorithm — occurs
case-insensitively in the title or in the abstract; in particular a record
whose abstract contains "neural network" but no standalone "ai"
matches. -/
theorem claim_C5 :
    (∀ pd : PaperData, matches_search_query "ai" pd = true ↔
      ((∃ t ∈ aiTerms, OccursWW t (lowerOpt pd.title)) ∨
       (∃ t ∈ aiTerms, OccursWW t (lowerOpt pd.abstract)))) ∧
    matches_search_query "ai" pdNeural = true ∧
    reWholeWord "ai".data (lowerOpt pdNeural.abstract) = false := by
  refine ⟨?_, by decide, by decide⟩
  intro pd
  rw [matches_search_query_eq "ai" pd (by decide)]
  rw [if_pos (by decide : (pyStripL (toLowerL "ai".data) == "ai".data) = true)]
  simp only [Bool.or_eq_true, List.any_eq_true, reWholeWord_iff]

/-- C6.  For every non-empty stored query whose lowered, stripped form is
not `"ai"`, `matches_search_query` returns true exactly when the query
(after `re.escape`, i.e. as a literal) bounded by word boundaries occurs
case-insensitively in the title or in the abstract; in particular the
query "labor" rejects a record whose title contains "collaborative" but
no standalone word "labor". -/
theorem claim_C6 :
    (∀ (q : String) (pd : PaperData), q ≠ "" →
      pyStripL (toLowerL q.data) ≠ "ai".data →
      (matches_search_query q pd = true ↔
        (OccursWW (pyStripL (toLowerL q.data)) (lowerOpt pd.title) ∨
         OccursWW (pyStripL (toLowerL q.data)) (lowerOpt pd.abstract)))) ∧
    matches_search_query "labor" pdCollab = false := by
  refine ⟨?_, by decide⟩
  intro q pd hq hai
  rw [matches_search_query_eq q pd (by simpa using hq)]
  rw [if_neg (by simpa using hai)]
  simp only [Bool.or_eq_true, List.any_eq_true, List.mem_singleton,
    reWholeWord_iff]
  constructor
  · rintro (⟨t, ht, h⟩ | ⟨t, ht, h⟩)
    · exact Or.inl (ht ▸ h)
    · exact Or.inr (ht ▸ h)
  · rintro (h | h)
    · exact Or.inl ⟨_, rfl, h⟩
    · exact Or.inr ⟨_, rfl, h⟩

/-- Witness for C6: the whole-word query "growth" accepts a record whose
title contains the standalone word "growth", via the theorem's
characterization instantiated at position 9 of the lowered title. -/
theorem claim_C6_witness : matches_search_query "growth" pdGrowth = true :=
  ((claim_C6.1 "growth" pdGrowth (by decide) (by decide)).mpr
    (Or.inl ⟨9, by decide, by decide⟩))

/-- C7.  `matches_date_range` passes every record whose publication date
is absent (falsy) or parses in neither accepted format (`YYYY/MM/DD`,
`YYYY-MM-DD`); when the date does parse, the result is `false` exactly
when the parsed date is strictly before a parseable start bound or
strictly after a parseable end bound — a bound that is absent, empty or
unparseable is ignored rather than causing rejection. -/
theorem claim_C7 : ∀ (sd ed : Option String) (pd : PaperData),
    ((pyTruthyS pd.publication_date = false ∨
      specDateParse (pd.publication_date.getD "") = none) →
      matches_date_range sd ed pd = true) ∧
    (∀ d, specDateParse (pd.publication_date.getD "") = some d →
      (matches_date_range sd ed pd = false ↔
        ((∃ s b, sd = some s ∧ specDateParse s = some b ∧ dateLt d b = true) ∨
         (∃ s b, ed = some s ∧ specDateParse s = some b ∧
           dateLt b d = true)))) := by
  intro sd ed pd
  constructor
  · intro h
    unfold matches_date_range
    split
    · rfl
    · split
      · rfl
      · rename_i h1 h2
        rcases h with h | h
        · exact absurd (by simp [h]) h2
        · rw [pubDateParse_eq_spec, h]
  · intro d hd
    have hpub : pyTruthyS pd.publication_date = true := by
      cases hpd : pd.publication_date with
      | none =>
        rw [hpd, show (none : Option String).getD "" = "" from rfl,
          specDateParse_empty] at hd
        cases hd
      | some s =>
        cases hse : s == "" with
        | true =>
          rw [hpd, show (some s).getD "" = s from rfl, beq_iff_eq.mp hse,
            specDateParse_empty] at hd
          cases hd
        | false => simp [pyTruthyS, bne, hse]
    unfold matches_date_range
    rw [pubDateParse_eq_spec, hd]
    cases hboth : !pyTruthyS sd && !pyTruthyS ed with
    | true =>
      rw [if_pos rfl]
      have hsd : pyTruthyS sd = false := by
        cases h : pyTruthyS sd with
        | false => rfl
        | true => rw [h] at hboth; simp at hboth
      have hed : pyTruthyS ed = false := by
        cases h : pyTruthyS ed with
        | false => rfl
        | true => rw [h] at hboth; simp at hboth
      constructor
      · intro h
        cases h
      · rintro (⟨s, b, hs, hp, hlt⟩ | ⟨s, b, hs, hp, hlt⟩)
        · exact absurd hp (fun hpp => noBound_of_falsy sd hsd s b hs hpp)
        · exact absurd hp (fun hpp => noBound_of_falsy ed hed s b hs hpp)
    | false =>
      rw [if_neg (by simp)]
      rw [if_neg (by rw [hpub]; simp)]
      dsimp only
      rw [ifRej_false_iff (startRejects sd d) (endRejects ed d)]
      rw [startRejects_iff sd d, endRejects_iff ed d]

/-- Witness for C7: a record without a date passes any window, and a
record dated 2022/05/01 is rejected by the end bound 2021-12-31. -/
theorem claim_C7_witness :
    matches_date_range none (some "2024-01-01") pdNoDate = true ∧
    matches_date_range (some "2022-01-01") (some "2021-12-31") pdDated = false :=
  ⟨(claim_C7 none (some "2024-01-01") pdNoDate).1 (Or.inl rfl),
   ((claim_C7 (some "2022-01-01") (some "2021-12-31") pdDated).2
      (2022, 5, 1) (by decide)).mpr
     (Or.inr ⟨"2021-12-31", (2021, 12, 31), rfl, by decide, by decide⟩)⟩

/-- C8 as amended.  An abstract obtained through the structural-selector
path is the cleaned selector text — leading "Abstract"/"Abstract:" label
stripped, internal whitespace runs collapsed to single spaces — and is
always whitespace-normalized; an abstract obtained through the full-text
fallback path is the captured group stripped at both ends only, with no
internal whitespace collapsing. -/
theorem claim_C8 :
    (∀ t : String, wsNormalized (cleanSelectorText t).data = true) ∧
    (∀ (p : Page) (t : String), p.abstractSelText = some t →
      cleanSelectorText t ≠ "" → computeAbstract p = some (cleanSelectorText t)) ∧
    (∀ (p : Page) (txt : String) (g : List Char), p.abstractSelText = none →
      p.mainText = some txt → reSearchAbstract txt.data = some g →
      computeAbstract p = some (⟨pyStripL g⟩ : String)) := by
  refine ⟨?_, ?_, ?_⟩
  · intro t
    show wsNormalized (collapseWS (stripAbstractLabel (pyStripL t.data))) = true
    exact wsNormalized_collapseWS _
  · intro p t hsel hne
    unfold computeAbstract
    rw [hsel]
    simp only [Option.map_some]
    rw [if_pos (by simp [pyTruthyS, bne]; exact hne)]
    rfl
  · intro p txt g hsel hmain hre
    unfold computeAbstract
    rw [hsel, hmain]
    simp only [Option.map_none]
    rw [if_neg (by simp [pyTruthyS])]
    rw [hre]

set_option maxRecDepth 1000000 in
/-- Counterexample for C8 as stated: at a page whose abstract is only
found by the full-text fallback, the extracted abstract keeps its two
internal double spaces, so it is not whitespace-normalized. -/
theorem claim_C8_counterexample :
    (extract_paper_metadata wC8 "b" 7).bind (fun r => r.abstract) =
      some bodyC8 ∧ wsNormalized bodyC8.data = false :=
  ⟨rfl, by decide⟩

/-- Witness for C8: the structural path at a concrete selector text whose
cleaning is non-empty. -/
theorem claim_C8_witness :
    computeAbstract pgC8sel = some (cleanSelectorText tC8) ∧
    wsNormalized (cleanSelectorText tC8).data = true :=
  ⟨claim_C8.2.1 pgC8sel tC8 rfl (by decide), claim_C8.1 tC8⟩

end NberScraper
